import Mathlib

/-
Verification development for the sphinx-autodocgen extension
(file sphinxcontrib_autodocgen/__init__.py).

The embedding models the recursive module walk, member classification,
rst rendering and output-file management of class AutoDocGen.  Host
(Sphinx / Python standard library) services that the code merely calls
are modelled as opaque parameters:
  * regular-expression matching (re.match on skip_module_regex,
    re.search on skip_on_docstring_regex) becomes Boolean predicates
    stored in the configuration, with None/empty-pattern falsiness
    modelled by an Option;
  * sphinx.util.rst.escape and os.path.normpath become fields of a
    Host record;
  * the autodoc member enumeration and filtering pipeline
    (get_object_members + filter_members + ModuleAnalyzer.find_attr_docs)
    is a host service: a module carries the resulting filtered member
    list (name, object, isattr) and the attribute-docstring table.
The file system is modelled as a function from basenames inside
generated_source_dir to optional file contents; the ghost field
rst_writes records the per-module rst write events of a run.
-/

set_option autoImplicit false

namespace AutoDocGen

/-- Python values that occur as autodoc option values in this code:
the booleans, None, and strings (any other value would raise a
TypeError on the concatenation in get_module_member_rst). -/
inductive PyVal where
  | pyTrue
  | pyFalse
  | pyNone
  | pyStr (s : String)
deriving DecidableEq, Repr

/-- Introspectable facts about a Python member object, as used by lines
333-365 of visit_module.  isInstBaseException models the test
isinstance(m, BaseException) the code performs (which for a class
object asks about its metaclass), while isSubclassBaseException models
issubclass(m, BaseException), the property the specification calls
"is an exception type"; the code never reads the latter field.
definedModule is getattr(m, "module attribute", missing): none models a
missing attribute, in which case the code substitutes the visited
module's name. -/
structure PyObject where
  isClassAttr : Bool
  isInstBaseException : Bool
  isSubclassBaseException : Bool
  isModuleAttr : Bool
  isFunctionAttr : Bool
  definedModule : Option String
  doc : Option String
deriving DecidableEq, Repr

/-- The object slot of a bucket entry: either an ordinary member object
or a submodule object (appended by the package recursion at line 301). -/
inductive MemberRef where
  | obj (o : PyObject)
  | mod (name : String)
deriving DecidableEq, Repr

/-- Host-derived per-module data: the module docstring, the package flag
(hasattr mod path-attribute), whether documenter.parse_name and
documenter.import_object succeed, the attribute docstring table
find_attr_docs keyed by member name (values already joined with
newlines), and the filtered member stream (name, object, isattr)
produced by get_object_members + filter_members. -/
structure ModuleData where
  doc : Option String
  isPkg : Bool
  importOk : Bool
  attrDocs : List (String × String)
  members : List (String × PyObject × Bool)
deriving DecidableEq, Repr

mutual
/-- A Python module tree node: dotted full name, host data, submodules
(as enumerated by pkgutil.iter_modules and imported by importlib). -/
inductive PyModule where
  | mk (name : String) (dat : ModuleData) (subs : PyForest)
/-- A list of sibling submodules (a separate inductive so that all
recursions below are structural and reduce in the kernel). -/
inductive PyForest where
  | nil
  | cons (m : PyModule) (rest : PyForest)
end

def PyModule.name : PyModule → String
  | .mk n _ _ => n

def PyModule.dat : PyModule → ModuleData
  | .mk _ d _ => d

def PyModule.subs : PyModule → PyForest
  | .mk _ _ s => s

def PyModule.moduleDoc : PyModule → Option String
  | .mk _ d _ => d.doc

def PyForest.toList : PyForest → List PyModule
  | .nil => []
  | .cons m rest => m :: PyForest.toList rest

def PyForest.isNil : PyForest → Bool
  | .nil => true
  | .cons _ _ => false

/-- A classified member entry: (qualified name, object, docstring),
exactly the triples stored in membersByType. -/
abbrev Entry := String × MemberRef × Option String

/-- membersByType: an insertion-ordered dict from member type to the
list of entries of that type. -/
abbrev Buckets := List (String × List Entry)

/-- The generated_source_dir contents: basename to file content. -/
abbrev Fs := String → Option String

/-- Host services used verbatim by the code: sphinx.util.rst.escape and
os.path.normpath. -/
structure Host where
  escape : String → String
  normpath : String → String

/-- The resolved autodocgen configuration (after generate applied the
Config class defaults at lines 155-156 and, if the decider was given as
a dict, wrapped it into a function at lines 158-161).
skip_module_regex none models a falsy (absent or empty) pattern,
otherwise the predicate is re.match of the pattern; likewise
skip_on_docstring_regex models re.search.  The options decider drops
the app and extra arguments of the Python callback (the latter is
always None at the call site). -/
structure Config where
  modules : PyForest
  generated_source_dir : String
  overwrite_generated_source_rsts : Bool
  skip_module_regex : Option (String → Bool)
  skip_on_docstring_regex : Option (String → Bool)
  module_title_decider : String → String
  autodoc_options_decider : String → String → MemberRef → Option String →
    List (String × PyVal) → Option (List (String × PyVal))
  write_documented_items_output_file : Option String
  /-- The imported-members entry of the host application's
  autodoc_default_options dict (default False), read by the ownership
  check at line 335; not an autodocgen option. -/
  autodoc_imported_members : Bool

/-- Per-run session state: the files of generated_source_dir, the
rst_files_generated set, the documented_items set (both modelled as
duplicate-free insertion-ordered lists), and the ghost log of per-module
rst file writes performed this run. -/
structure GenState where
  fs : Fs
  rst_files_generated : List String
  documented_items : List String
  rst_writes : List String

/-- What visit_module returns to its caller: False for a skipped module,
None (Python) when no rst was generated, True otherwise, and rAbort for
an AssertionError escaping the visit. -/
inductive VRes where
  | rFalse
  | rNone
  | rTrue
  | rAbort
deriving DecidableEq, Repr

/-- Module-level constant member_underline. -/
def member_underline : Char := '='

/-- Module-level constant module_underline. -/
def module_underline : Char := '~'

/-- Module-level constant doc_module_member_types; order matters. -/
def doc_module_member_types : List String :=
  ["module", "data", "class", "exception", "function"]

/-- Module-level constant autosummary_member_types. -/
def autosummary_member_types : List String := ["module"]

/-- A character repeated n times, as in Python string multiplication. -/
def strRepeat (c : Char) (n : Nat) : String :=
  String.mk (List.replicate n c)

/-- Python truthiness of an optional string: None and the empty string
are falsy. -/
def pyTruthy : Option String → Bool
  | none => false
  | some s => !(s == "")

/-- The split of a character list at dots, accumulating the current
fragment in reverse: executable model of the str.split call with a dot
separator. -/
def splitDotAux : List Char → List Char → List String
  | [], acc => [String.mk acc.reverse]
  | c :: cs, acc =>
    if c = '.' then String.mk acc.reverse :: splitDotAux cs []
    else splitDotAux cs (c :: acc)

/-- Python str.split on a dot separator. -/
def splitDot (s : String) : List String := splitDotAux s.data []

/-- Python code-point-wise lexicographic string comparison (the order
used by list.sort on strings), on character lists. -/
def charListLe : List Char → List Char → Bool
  | [], _ => true
  | _ :: _, [] => false
  | a :: as, b :: bs =>
    if a.toNat < b.toNat then true
    else if b.toNat < a.toNat then false
    else charListLe as bs

/-- Python string comparison, for list.sort. -/
def strLe (a b : String) : Bool := charListLe a.data b.data

/-- First-match lookup in an association list (dict access). -/
def lookupStr : List (String × String) → String → Option String
  | [], _ => none
  | (k, v) :: rest, q => if k == q then some v else lookupStr rest q

/-- Set insertion, modelling Python set.add on an insertion-ordered
duplicate-free list. -/
def insertIfAbsent (l : List String) (x : String) : List String :=
  if l.contains x then l else l ++ [x]

/-- A sequence of set.add calls. -/
def insertAll (l : List String) (xs : List String) : List String :=
  xs.foldl insertIfAbsent l

/-- Writing a file: later writes shadow earlier content. -/
def fsWrite (fs : Fs) (k : String) (v : String) : Fs :=
  fun q => if q == k then some v else fs q

/-- The docstring-based skip test shared by lines 285-287 and 360-363:
skip when the pattern is set, the docstring is truthy and re.search
matches. -/
def docstringSkipped (cfg : Config) (d : Option String) : Bool :=
  match cfg.skip_on_docstring_regex with
  | none => false
  | some p => pyTruthy d && p (d.getD "")

/-- The module skip decision of lines 283-287: a name-pattern match
(re.match, when the pattern is truthy) or a docstring-pattern match. -/
def moduleSkipped (cfg : Config) (modulename : String) (doc : Option String) : Bool :=
  (match cfg.skip_module_regex with
   | none => false
   | some p => p modulename) ||
  docstringSkipped cfg doc

/-- The member kind classification of lines 341-354.  none means the
member is dropped (imported submodules at line 349, unknown types at
line 353). -/
def memberTypeOf (isattr : Bool) (o : PyObject) : Option String :=
  if isattr then some "data"
  else if o.isClassAttr then
    (if o.isInstBaseException then some "exception" else some "class")
  else if o.isModuleAttr then none
  else if o.isFunctionAttr then some "function"
  else none

/-- Appending an entry to the bucket of the given member type. -/
def bucketAppend (bs : Buckets) (t : String) (e : Entry) : Buckets :=
  bs.map (fun kv => if kv.1 == t then (kv.1, kv.2 ++ [e]) else kv)

/-- The body of the member loop at lines 333-365: ownership check,
classification, docstring resolution (attr_docs first, then the doc
attribute), per-member docstring skip, bucket append. -/
def processMember (cfg : Config) (modulename : String)
    (attrDocs : List (String × String)) (bs : Buckets)
    (mem : String × PyObject × Bool) : Buckets :=
  let mname := mem.1
  let o := mem.2.1
  let isattr := mem.2.2
  if !isattr && !cfg.autodoc_imported_members &&
      ((o.definedModule.getD modulename) != modulename) then bs
  else
    match memberTypeOf isattr o with
    | none => bs
    | some mtype =>
      let docstring :=
        match lookupStr attrDocs mname with
        | some d => some d
        | none => o.doc
      if docstringSkipped cfg docstring then bs
      else bucketAppend bs mtype (modulename ++ "." ++ mname, MemberRef.obj o, docstring)

/-- membersByType as built by visit_module: the five kind buckets in
order (line 295), the collected submodule entries appended to the
module bucket (line 301; the membership test there is always true),
then the member loop. -/
def buildBuckets (cfg : Config) (modulename : String) (subEntries : List Entry)
    (members : List (String × PyObject × Bool))
    (attrDocs : List (String × String)) : Buckets :=
  let bs0 : Buckets := doc_module_member_types.map (fun t => (t, []))
  let bs1 := subEntries.foldl (fun bs e => bucketAppend bs "module" e) bs0
  members.foldl (processMember cfg modulename attrDocs) bs1

/-- The default autodoc options of line 205. -/
def memberDefaults (memberType : String) : List (String × PyVal) :=
  [("members", if memberType == "class" || memberType == "exception"
               then PyVal.pyTrue else PyVal.pyFalse)]

/-- Lines 206-208: call the configured decider with the defaults and
fall back to the defaults when it returns None. -/
def resolvedOptions (cfg : Config) (memberType qualifiedName : String)
    (o : MemberRef) (docstring : Option String) : List (String × PyVal) :=
  match cfg.autodoc_options_decider memberType qualifiedName o docstring
      (memberDefaults memberType) with
  | none => memberDefaults memberType
  | some os => os

/-- The heading-plus-directive template of lines 192-203: blank line,
escaped short name, underline of equal signs, blank line, the
autoXXX directive on the unescaped short name. -/
def memberHeaderStr (h : Host) (memberType qualifiedName : String) : String :=
  let name := (splitDot qualifiedName).getLastD ""
  "\n" ++ h.escape name ++ "\n" ++
    strRepeat member_underline (h.escape name).length ++
    "\n\n.. auto" ++ memberType ++ ":: " ++ name ++ "\n"

/-- get_module_member_rst (lines 190-216): header, then one line per
option, where a False value is skipped, a True or None value yields a
bare flag and any other value is concatenated after the flag. -/
def get_module_member_rst (h : Host) (cfg : Config)
    (memberType qualifiedName : String) (o : MemberRef)
    (docstring : Option String) : String :=
  (resolvedOptions cfg memberType qualifiedName o docstring).foldl
    (fun result kv =>
      match kv.2 with
      | PyVal.pyFalse => result
      | PyVal.pyTrue => result ++ "   :" ++ kv.1 ++ ":" ++ "\n"
      | PyVal.pyNone => result ++ "   :" ++ kv.1 ++ ":" ++ "\n"
      | PyVal.pyStr s => result ++ "   :" ++ kv.1 ++ ":" ++ " " ++ s ++ "\n")
    (memberHeaderStr h memberType qualifiedName)

/-- The string part of generate_member_type_rst (lines 218-238): an
autosummary block for the module kind, otherwise the joined member
blocks.  The documented_items additions the Python method performs are
modelled separately by member_type_doc_adds. -/
def generate_member_type_rst (h : Host) (cfg : Config) (memberType : String)
    (members : List Entry) : String :=
  if autosummary_member_types.contains memberType then
    String.intercalate "\n"
      ([".. autosummary::", "  :toctree: ./", ""] ++
        members.map (fun e => "  " ++ e.1))
  else
    String.intercalate "\n"
      (members.map (fun e => get_module_member_rst h cfg memberType e.1 e.2.1 e.2.2))

/-- The documented_items additions of generate_member_type_rst
(lines 226-227). -/
def member_type_doc_adds (memberType : String) (members : List Entry) : List String :=
  members.map (fun e => e.1 ++ " (" ++ memberType ++ ")")

/-- The string part of generate_module_rst (lines 240-271): None for an
empty mapping, otherwise title, automodule and currentmodule directives,
then the non-empty sections; a section string is appended only when it
is truthy. -/
def generate_module_rst (h : Host) (cfg : Config) (module_fullname : String)
    (membersByType : Buckets) : Option String :=
  match membersByType with
  | [] => none
  | _ =>
    let title := cfg.module_title_decider module_fullname
    let header := "\n" ++ h.escape title ++ "\n" ++
      strRepeat module_underline (h.escape title).length ++
      "\n\n.. automodule:: " ++ module_fullname ++
      "\n\n.. currentmodule:: " ++ module_fullname ++ "\n\n"
    some (membersByType.foldl
      (fun output tm =>
        match tm.2 with
        | [] => output
        | _ =>
          let extra := generate_member_type_rst h cfg tm.1 tm.2
          if extra = "" then output else output ++ "\n" ++ extra)
      header)

/-- The documented_items additions performed inside generate_module_rst:
nothing for an empty mapping (the method returns at line 246 before the
addition), otherwise the module item followed by the member items of
each non-empty bucket in order. -/
def module_rst_doc_adds (module_fullname : String) (membersByType : Buckets) : List String :=
  match membersByType with
  | [] => []
  | _ =>
    (module_fullname ++ " (module)") ::
      membersByType.flatMap (fun tm =>
        match tm.2 with
        | [] => []
        | _ => member_type_doc_adds tm.1 tm.2)

/-- Lines 374-387 of visit_module: register the output basename in
rst_files_generated, then compare with any existing file, honour the
overwrite policy, and write when needed.  The basename of
generated_source_dir + "/" + name + ".rst" is name ++ ".rst" since a
module name contains no path separator. -/
def fileStep (cfg : Config) (st : GenState) (base rst : String) : GenState :=
  let st1 : GenState :=
    { st with rst_files_generated := insertIfAbsent st.rst_files_generated base }
  match st1.fs base with
  | some existing =>
    if existing = rst then st1
    else if cfg.overwrite_generated_source_rsts then
      { st1 with fs := fsWrite st1.fs base rst,
                 rst_writes := st1.rst_writes ++ [base] }
    else st1
  | none =>
    { st1 with fs := fsWrite st1.fs base rst,
               rst_writes := st1.rst_writes ++ [base] }

/-- Lines 369-387: render the module rst (with its documented_items side
effect), return None-result when the rst is falsy, otherwise perform the
file step and return True. -/
def renderStep (h : Host) (cfg : Config) (st : GenState) (modulename : String)
    (bs : Buckets) : GenState × VRes :=
  let st1 : GenState :=
    { st with documented_items :=
        insertAll st.documented_items (module_rst_doc_adds modulename bs) }
  let rst := (generate_module_rst h cfg modulename bs).getD ""
  if rst = "" then (st1, VRes.rNone)
  else (fileStep cfg st1 (modulename ++ ".rst") rst, VRes.rTrue)

mutual
/-- visit_module (lines 273-389): skip check first (returning False),
then for a package the submodule recursion collecting module-bucket
entries, the documenter import assertion (rAbort models the
AssertionError at line 321), the member loop and the render step.
The moduleall set computed at line 303 is never read afterwards and is
omitted; the host-side member filtering of lines 312-330 is the source
of the module's member stream (ModuleData.members). -/
def visit_module (h : Host) (cfg : Config) (st : GenState) (m : PyModule) :
    GenState × VRes :=
  match m with
  | PyModule.mk modulename dat subs =>
    if moduleSkipped cfg modulename dat.doc then (st, VRes.rFalse)
    else
      match (if dat.isPkg then visitSubs h cfg st subs else (st, some [])) with
      | (st1, none) => (st1, VRes.rAbort)
      | (st1, some subEntries) =>
        if dat.importOk then
          renderStep h cfg st1 modulename
            (buildBuckets cfg modulename subEntries dat.members dat.attrDocs)
        else (st1, VRes.rAbort)

/-- The submodule loop of lines 297-301: visit each submodule in order,
stop on an escaping AssertionError, and collect an entry
(name, module object, module docstring) for each submodule whose visit
returned a truthy value. -/
def visitSubs (h : Host) (cfg : Config) (st : GenState) (ms : PyForest) :
    GenState × Option (List Entry) :=
  match ms with
  | PyForest.nil => (st, some [])
  | PyForest.cons m rest =>
    match visit_module h cfg st m with
    | (st1, VRes.rAbort) => (st1, none)
    | (st1, VRes.rTrue) =>
      match visitSubs h cfg st1 rest with
      | (st2, none) => (st2, none)
      | (st2, some es) =>
        (st2, some ((m.name, MemberRef.mod m.name, m.moduleDoc) :: es))
    | (st1, _) => visitSubs h cfg st1 rest
end

/-- The root-module loop of lines 177-178 (return values discarded;
an escaping AssertionError aborts the run). -/
def runVisits (h : Host) (cfg : Config) (st : GenState) (ms : PyForest) :
    GenState × Bool :=
  match ms with
  | PyForest.nil => (st, false)
  | PyForest.cons m rest =>
    match visit_module h cfg st m with
    | (st1, VRes.rAbort) => (st1, true)
    | (st1, _) => runVisits h cfg st1 rest

/-- Insertion into a sorted list of strings, for items.sort(). -/
def insertSorted (x : String) : List String → List String
  | [] => [x]
  | y :: ys => if strLe x y then x :: y :: ys else y :: insertSorted x ys

/-- Sorting a list of strings, for items.sort() at line 186. -/
def sortStrings (l : List String) : List String :=
  l.foldr insertSorted []

/-- The diagnostic file content of lines 185-188: each item followed by
a newline, in sorted order. -/
def sortedJoin (items : List String) : String :=
  String.join ((sortStrings items).map (fun s => s ++ "\n"))

/-- generate (lines 149-188): the generated_source_dir assertion, the
empty-modules assertion, the visits, the stale-file cleanup (delete
every file not in rst_files_generated), and the optional diagnostic
listing.  The second component carries the assertion message when the
run aborts; in that case the returned state is the state at the moment
the AssertionError was raised. -/
def generate (h : Host) (cfg : Config) (fs0 : Fs) : GenState × Option String :=
  if h.normpath cfg.generated_source_dir = h.normpath "." then
    ({ fs := fs0, rst_files_generated := [], documented_items := [],
       rst_writes := [] },
     some "Cannot use current path as generated_source_dir - everything would be wiped out!")
  else
    match cfg.modules with
    | PyForest.nil =>
      ({ fs := fs0, rst_files_generated := [], documented_items := [],
         rst_writes := [] }, some "no modules")
    | PyForest.cons _ _ =>
      let st0 : GenState :=
        { fs := fs0, rst_files_generated := [], documented_items := [],
          rst_writes := [] }
      match runVisits h cfg st0 cfg.modules with
      | (st, true) => (st, some "documenter failed to import module")
      | (st, false) =>
        let cleaned : GenState :=
          { st with fs := fun k =>
              if st.rst_files_generated.contains k then st.fs k else none }
        match cfg.write_documented_items_output_file with
        | none => (cleaned, none)
        | some fname =>
          ({ cleaned with
              fs := fsWrite cleaned.fs fname (sortedJoin cleaned.documented_items) },
           none)

/-
Pure mirror of the visit: because the control flow of visit_module
depends on the session state only through the file system at the very
last step (fileStep), the visit result, the collected submodule
entries, the rendered text and the sequence of rendered output files
are all pure functions of the module tree and the configuration.  The
following functions compute them directly; the correspondence theorems
below relate them to visit_module.
-/

/-- The rendered text produced at the render step of a module (after a
successful import), none when the rst is falsy. -/
def pvOwn (h : Host) (cfg : Config) (modulename : String) (dat : ModuleData)
    (subEntries : List Entry) : Option String :=
  let rst := (generate_module_rst h cfg modulename
    (buildBuckets cfg modulename subEntries dat.members dat.attrDocs)).getD ""
  if rst = "" then none else some rst

mutual
/-- The value visit_module returns, as a pure function of the tree. -/
def pvRes (h : Host) (cfg : Config) (m : PyModule) : VRes :=
  match m with
  | PyModule.mk modulename dat subs =>
    if moduleSkipped cfg modulename dat.doc then VRes.rFalse
    else
      match (if dat.isPkg then pvSubs h cfg subs else some []) with
      | none => VRes.rAbort
      | some es =>
        if dat.importOk then
          match pvOwn h cfg modulename dat es with
          | none => VRes.rNone
          | some _ => VRes.rTrue
        else VRes.rAbort

/-- The submodule entries collected by the loop at lines 297-301, none
when an AssertionError escapes the loop. -/
def pvSubs (h : Host) (cfg : Config) (ms : PyForest) : Option (List Entry) :=
  match ms with
  | PyForest.nil => some []
  | PyForest.cons m rest =>
    match pvRes h cfg m with
    | VRes.rAbort => none
    | VRes.rTrue =>
      (pvSubs h cfg rest).map
        (fun es => (m.name, MemberRef.mod m.name, m.moduleDoc) :: es)
    | _ => pvSubs h cfg rest
end

/-- The rendered text of a module's own output file, none when the
visit never reaches the file step (skip, abort, or falsy rst). -/
def pvRst (h : Host) (cfg : Config) (m : PyModule) : Option String :=
  match m with
  | PyModule.mk modulename dat subs =>
    if moduleSkipped cfg modulename dat.doc then none
    else
      match (if dat.isPkg then pvSubs h cfg subs else some []) with
      | none => none
      | some es =>
        if dat.importOk then pvOwn h cfg modulename dat es else none

mutual
/-- The (basename, rendered text) pairs of the file steps performed
while visiting a module, in visit order. -/
def pvRendered (h : Host) (cfg : Config) (m : PyModule) : List (String × String) :=
  match m with
  | PyModule.mk modulename dat subs =>
    if moduleSkipped cfg modulename dat.doc then []
    else
      let subR := if dat.isPkg then pvRenderedSubs h cfg subs else []
      match (if dat.isPkg then pvSubs h cfg subs else some []) with
      | none => subR
      | some es =>
        if dat.importOk then
          match pvOwn h cfg modulename dat es with
          | none => subR
          | some r => subR ++ [(modulename ++ ".rst", r)]
        else subR

/-- The file steps performed by the submodule loop (cut short when a
visit aborts). -/
def pvRenderedSubs (h : Host) (cfg : Config) (ms : PyForest) : List (String × String) :=
  match ms with
  | PyForest.nil => []
  | PyForest.cons m rest =>
    pvRendered h cfg m ++
      (match pvRes h cfg m with
       | VRes.rAbort => []
       | _ => pvRenderedSubs h cfg rest)
end

/-- The file-system/write-log effect of one file step, as a function of
the (fs, writes) pair: the same comparison and overwrite-policy logic
as fileStep. -/
def fwStep (cfg : Config) (p : Fs × List String) (e : String × String) :
    Fs × List String :=
  match p.1 e.1 with
  | some existing =>
    if existing = e.2 then p
    else if cfg.overwrite_generated_source_rsts then
      (fsWrite p.1 e.1 e.2, p.2 ++ [e.1])
    else p
  | none => (fsWrite p.1 e.1 e.2, p.2 ++ [e.1])

/-- The combined effect of a sequence of file steps. -/
def fwFold (cfg : Config) (p : Fs × List String) (l : List (String × String)) :
    Fs × List String :=
  l.foldl (fwStep cfg) p

mutual
/-- The documented_items additions of a module visit, in order:
first the additions of the submodule visits, then (if the render step
is reached) the additions of generate_module_rst. -/
def pvDocAdds (h : Host) (cfg : Config) (m : PyModule) : List String :=
  match m with
  | PyModule.mk modulename dat subs =>
    if moduleSkipped cfg modulename dat.doc then []
    else
      let subA := if dat.isPkg then pvDocAddsSubs h cfg subs else []
      match (if dat.isPkg then pvSubs h cfg subs else some []) with
      | none => subA
      | some es =>
        if dat.importOk then
          subA ++ module_rst_doc_adds modulename
            (buildBuckets cfg modulename es dat.members dat.attrDocs)
        else subA

/-- The documented_items additions of the submodule loop. -/
def pvDocAddsSubs (h : Host) (cfg : Config) (ms : PyForest) : List String :=
  match ms with
  | PyForest.nil => []
  | PyForest.cons m rest =>
    pvDocAdds h cfg m ++
      (match pvRes h cfg m with
       | VRes.rAbort => []
       | _ => pvDocAddsSubs h cfg rest)
end

theorem insertAll_append (g : List String) (a b : List String) :
    insertAll g (a ++ b) = insertAll (insertAll g a) b :=
  List.foldl_append ..

theorem fwFold_append (cfg : Config) (p : Fs × List String)
    (a b : List (String × String)) :
    fwFold cfg p (a ++ b) = fwFold cfg (fwFold cfg p a) b :=
  List.foldl_append ..

theorem insertAll_singleton (g : List String) (x : String) :
    insertAll g [x] = insertIfAbsent g x := rfl

theorem fwFold_singleton (cfg : Config) (p : Fs × List String) (e : String × String) :
    fwFold cfg p [e] = fwStep cfg p e := rfl

/-- fileStep acts on the generated set by insertion and on (fs, writes)
exactly as fwStep. -/
theorem fileStep_char (cfg : Config) (st : GenState) (b r : String) :
    fileStep cfg st b r =
      { fs := (fwStep cfg (st.fs, st.rst_writes) (b, r)).1,
        rst_files_generated := insertIfAbsent st.rst_files_generated b,
        documented_items := st.documented_items,
        rst_writes := (fwStep cfg (st.fs, st.rst_writes) (b, r)).2 } := by
  unfold fileStep fwStep
  rcases hfs : st.fs b with _ | existing
  · simp [hfs]
  · simp only [hfs]
    by_cases he : existing = r
    · simp [he]
    · by_cases how : cfg.overwrite_generated_source_rsts <;> simp [he, how]

mutual
/-- Master characterization of visit_module: the result value and the
additions to each state component are pure functions of the module tree
and configuration; the file system and write log evolve by folding the
file steps of pvRendered over the incoming state. -/
theorem visit_module_eq (h : Host) (cfg : Config) (st : GenState) (m : PyModule) :
    visit_module h cfg st m =
      ({ fs := (fwFold cfg (st.fs, st.rst_writes) (pvRendered h cfg m)).1,
         rst_files_generated :=
           insertAll st.rst_files_generated ((pvRendered h cfg m).map Prod.fst),
         documented_items := insertAll st.documented_items (pvDocAdds h cfg m),
         rst_writes := (fwFold cfg (st.fs, st.rst_writes) (pvRendered h cfg m)).2 },
       pvRes h cfg m) := by
  match m with
  | PyModule.mk modulename dat subs =>
    simp only [visit_module, pvRendered, pvDocAdds, pvRes]
    cases hsk : moduleSkipped cfg modulename dat.doc
    case true => simp [fwFold, insertAll]
    case false =>
    simp only [Bool.false_eq_true, if_false]
    cases hp : dat.isPkg
    case false =>
      simp only [Bool.false_eq_true, if_false]
      cases hok : dat.importOk
      case false =>
        simp [fwFold, insertAll]
      case true =>
        simp only [if_true]
        simp only [renderStep, pvOwn]
        by_cases hrst :
            (generate_module_rst h cfg modulename
              (buildBuckets cfg modulename [] dat.members dat.attrDocs)).getD "" = ""
        · simp [hrst, fwFold, insertAll]
        · simp only [hrst, if_neg, if_false]
          rw [fileStep_char]
          simp [hrst, fwFold, insertAll, fwFold_singleton]
    case true =>
      simp only [if_true]
      rw [visitSubs_eq h cfg st subs]
      cases hes : pvSubs h cfg subs with
      | none => simp
      | some es =>
        simp only
        cases hok : dat.importOk
        case false =>
          simp
        case true =>
          simp only [if_true]
          simp only [renderStep, pvOwn]
          by_cases hrst :
              (generate_module_rst h cfg modulename
                (buildBuckets cfg modulename es dat.members dat.attrDocs)).getD "" = ""
          · simp [hrst, insertAll_append]
          · simp only [hrst, if_neg, if_false]
            rw [fileStep_char]
            simp [hrst, insertAll_append, fwFold_append, fwFold_singleton,
              insertAll_singleton]

/-- Master characterization of the submodule loop. -/
theorem visitSubs_eq (h : Host) (cfg : Config) (st : GenState) (ms : PyForest) :
    visitSubs h cfg st ms =
      ({ fs := (fwFold cfg (st.fs, st.rst_writes) (pvRenderedSubs h cfg ms)).1,
         rst_files_generated :=
           insertAll st.rst_files_generated ((pvRenderedSubs h cfg ms).map Prod.fst),
         documented_items := insertAll st.documented_items (pvDocAddsSubs h cfg ms),
         rst_writes := (fwFold cfg (st.fs, st.rst_writes) (pvRenderedSubs h cfg ms)).2 },
       pvSubs h cfg ms) := by
  match ms with
  | PyForest.nil => simp [visitSubs, pvRenderedSubs, pvDocAddsSubs, pvSubs, fwFold, insertAll]
  | PyForest.cons m rest =>
    simp only [visitSubs, pvRenderedSubs, pvDocAddsSubs, pvSubs]
    rw [visit_module_eq h cfg st m]
    cases hres : pvRes h cfg m with
    | rAbort => simp
    | rTrue =>
      dsimp only
      rw [visitSubs_eq h cfg]
      cases h2 : pvSubs h cfg rest with
      | none => simp [insertAll_append, fwFold_append]
      | some es => simp [insertAll_append, fwFold_append]
    | rFalse =>
      dsimp only
      rw [visitSubs_eq h cfg]
      simp [insertAll_append, fwFold_append]
    | rNone =>
      dsimp only
      rw [visitSubs_eq h cfg]
      simp [insertAll_append, fwFold_append]
end

/-- Master characterization of the root-module loop: same state
evolution as the submodule loop, with the abort flag set exactly when
the pure traversal aborts. -/
theorem runVisits_eq (h : Host) (cfg : Config) (st : GenState) (ms : PyForest) :
    runVisits h cfg st ms =
      ({ fs := (fwFold cfg (st.fs, st.rst_writes) (pvRenderedSubs h cfg ms)).1,
         rst_files_generated :=
           insertAll st.rst_files_generated ((pvRenderedSubs h cfg ms).map Prod.fst),
         documented_items := insertAll st.documented_items (pvDocAddsSubs h cfg ms),
         rst_writes := (fwFold cfg (st.fs, st.rst_writes) (pvRenderedSubs h cfg ms)).2 },
       (pvSubs h cfg ms).isNone) := by
  match ms with
  | PyForest.nil => simp [runVisits, pvRenderedSubs, pvDocAddsSubs, pvSubs, fwFold, insertAll]
  | PyForest.cons m rest =>
    simp only [runVisits, pvRenderedSubs, pvDocAddsSubs, pvSubs]
    rw [visit_module_eq h cfg st m]
    cases hres : pvRes h cfg m with
    | rAbort => simp
    | rTrue =>
      dsimp only
      rw [runVisits_eq h cfg]
      cases h2 : pvSubs h cfg rest with
      | none => simp [insertAll_append, fwFold_append]
      | some es => simp [insertAll_append, fwFold_append]
    | rFalse =>
      dsimp only
      rw [runVisits_eq h cfg]
      simp [insertAll_append, fwFold_append]
    | rNone =>
      dsimp only
      rw [runVisits_eq h cfg]
      simp [insertAll_append, fwFold_append]

/-
Pure description of a completed run, used to state the end-to-end
properties: the file-step list, the final generated set, documented
items, post-visit and post-cleanup file systems, and the write log.
-/

/-- The file steps of a whole run. -/
def runL (h : Host) (cfg : Config) : List (String × String) :=
  pvRenderedSubs h cfg cfg.modules

/-- The rst_files_generated set at the end of a run. -/
def runGen (h : Host) (cfg : Config) : List String :=
  insertAll [] ((runL h cfg).map Prod.fst)

/-- The documented_items set at the end of a run. -/
def runDoc (h : Host) (cfg : Config) : List String :=
  insertAll [] (pvDocAddsSubs h cfg cfg.modules)

/-- The file system after the visits of a run from initial contents fs0. -/
def runFsV (h : Host) (cfg : Config) (fs0 : Fs) : Fs :=
  (fwFold cfg (fs0, []) (runL h cfg)).1

/-- The per-module rst writes of a run from initial contents fs0. -/
def runWrites (h : Host) (cfg : Config) (fs0 : Fs) : List String :=
  (fwFold cfg (fs0, []) (runL h cfg)).2

/-- The file system after the stale-file cleanup of a run. -/
def runClean (h : Host) (cfg : Config) (fs0 : Fs) : Fs :=
  fun k => if (runGen h cfg).contains k then runFsV h cfg fs0 k else none

/-- The file system at the very end of a run (after the optional
diagnostic listing is written). -/
def runFinalFs (h : Host) (cfg : Config) (fs0 : Fs) : Fs :=
  match cfg.write_documented_items_output_file with
  | none => runClean h cfg fs0
  | some fname => fsWrite (runClean h cfg fs0) fname (sortedJoin (runDoc h cfg))

/-- Characterization of a completed (non-aborting) run of generate. -/
theorem generate_run_eq (h : Host) (cfg : Config) (fs0 : Fs)
    (hdir : ¬ h.normpath cfg.generated_source_dir = h.normpath ".")
    (hnil : cfg.modules.isNil = false)
    (hab : (pvSubs h cfg cfg.modules).isNone = false) :
    generate h cfg fs0 =
      ({ fs := runFinalFs h cfg fs0,
         rst_files_generated := runGen h cfg,
         documented_items := runDoc h cfg,
         rst_writes := runWrites h cfg fs0 }, none) := by
  unfold generate
  rw [if_neg hdir]
  rcases hm : cfg.modules with _ | ⟨m0, rest0⟩
  · rw [hm] at hnil; simp [PyForest.isNil] at hnil
  · rw [hm] at hab
    dsimp only
    rw [runVisits_eq h cfg _ (PyForest.cons m0 rest0), hab]
    unfold runFinalFs runClean runGen runDoc runFsV runWrites runL
    rw [hm]
    cases hd : cfg.write_documented_items_output_file <;> simp [hd]

/-- Characterization of a run aborted by the documenter import
assertion. -/
theorem generate_abort_eq (h : Host) (cfg : Config) (fs0 : Fs)
    (hdir : ¬ h.normpath cfg.generated_source_dir = h.normpath ".")
    (hnil : cfg.modules.isNil = false)
    (hab : (pvSubs h cfg cfg.modules).isNone = true) :
    (generate h cfg fs0).2 = some "documenter failed to import module" := by
  unfold generate
  rw [if_neg hdir]
  rcases hm : cfg.modules with _ | ⟨m0, rest0⟩
  · rw [hm] at hnil; simp [PyForest.isNil] at hnil
  · rw [hm] at hab
    dsimp only
    rw [runVisits_eq h cfg _ (PyForest.cons m0 rest0), hab]

/-
List-level lemmas about the set insertions and the file-step fold,
used to derive the end-to-end properties from the characterizations.
-/

theorem mem_insertIfAbsent (l : List String) (x y : String) :
    y ∈ insertIfAbsent l x ↔ y ∈ l ∨ y = x := by
  unfold insertIfAbsent
  by_cases hc : l.contains x
  · rw [if_pos hc]
    have hx : x ∈ l := by
      simpa using hc
    constructor
    · exact fun hy => Or.inl hy
    · rintro (hy | rfl) <;> assumption
  · rw [if_neg hc]
    simp

theorem mem_insertAll (g : List String) (xs : List String) (y : String) :
    y ∈ insertAll g xs ↔ y ∈ g ∨ y ∈ xs := by
  induction xs generalizing g with
  | nil => simp [insertAll]
  | cons x rest ih =>
    have : insertAll g (x :: rest) = insertAll (insertIfAbsent g x) rest := rfl
    rw [this, ih, mem_insertIfAbsent]
    constructor
    · rintro ((hy | rfl) | hy)
      · exact Or.inl hy
      · exact Or.inr (List.mem_cons_self _ _)
      · exact Or.inr (List.mem_cons_of_mem _ hy)
    · rintro (hy | hy)
      · exact Or.inl (Or.inl hy)
      · rcases List.mem_cons.mp hy with rfl | hy
        · exact Or.inl (Or.inr rfl)
        · exact Or.inr hy

theorem fwStep_frame (cfg : Config) (p : Fs × List String) (e : String × String)
    (k : String) (hk : k ≠ e.1) : (fwStep cfg p e).1 k = p.1 k := by
  unfold fwStep
  rcases p.1 e.1 with _ | existing
  · simp [fsWrite, hk]
  · dsimp only
    by_cases he : existing = e.2
    · simp [he]
    · by_cases how : cfg.overwrite_generated_source_rsts <;>
        simp [he, how, fsWrite, hk]

theorem fwFold_frame (cfg : Config) (p : Fs × List String)
    (l : List (String × String)) (k : String) :
    (∀ e ∈ l, k ≠ e.1) → (fwFold cfg p l).1 k = p.1 k := by
  induction l generalizing p with
  | nil => intro _; rfl
  | cons e rest ih =>
    intro hk
    have h1 : fwFold cfg p (e :: rest) = fwFold cfg (fwStep cfg p e) rest := rfl
    rw [h1, ih _ (fun e' he' => hk e' (List.mem_cons_of_mem _ he'))]
    exact fwStep_frame cfg p e k (hk e (List.mem_cons_self _ _))

theorem fwStep_isSome_mono (cfg : Config) (p : Fs × List String)
    (e : String × String) (k : String) (hs : (p.1 k).isSome = true) :
    ((fwStep cfg p e).1 k).isSome = true := by
  unfold fwStep
  rcases hfs : p.1 e.1 with _ | existing
  · dsimp only
    by_cases hk : k = e.1 <;> simp [fsWrite, hk, hs]
  · dsimp only
    by_cases he : existing = e.2
    · simp [he, hs]
    · by_cases how : cfg.overwrite_generated_source_rsts <;>
        by_cases hk : k = e.1 <;> simp [he, how, fsWrite, hk, hs, hfs]

theorem fwStep_isSome_self (cfg : Config) (p : Fs × List String)
    (e : String × String) : ((fwStep cfg p e).1 e.1).isSome = true := by
  unfold fwStep
  rcases hfs : p.1 e.1 with _ | existing
  · simp [fsWrite]
  · dsimp only
    by_cases he : existing = e.2
    · simp [he, hfs]
    · by_cases how : cfg.overwrite_generated_source_rsts <;>
        simp [he, how, fsWrite, hfs]

theorem fwFold_isSome_mono (cfg : Config) (p : Fs × List String)
    (l : List (String × String)) (k : String) (hs : (p.1 k).isSome = true) :
    ((fwFold cfg p l).1 k).isSome = true := by
  induction l generalizing p with
  | nil => exact hs
  | cons e rest ih =>
    exact ih (fwStep cfg p e) (fwStep_isSome_mono cfg p e k hs)

theorem fwFold_mem_isSome (cfg : Config) (p : Fs × List String)
    (l : List (String × String)) (b : String) :
    b ∈ l.map Prod.fst → ((fwFold cfg p l).1 b).isSome = true := by
  induction l generalizing p with
  | nil => intro hb; simp at hb
  | cons e rest ih =>
    intro hb
    rw [List.map_cons] at hb
    have h1 : fwFold cfg p (e :: rest) = fwFold cfg (fwStep cfg p e) rest := rfl
    rw [h1]
    rcases List.mem_cons.mp hb with hb1 | hb2
    · apply fwFold_isSome_mono
      rw [hb1]
      exact fwStep_isSome_self cfg p e
    · exact ih (fwStep cfg p e) hb2

theorem contains_iff_mem (l : List String) (x : String) :
    l.contains x = true ↔ x ∈ l := by
  simp

theorem fwStep_stable_at (cfg : Config) (p : Fs × List String)
    (e : String × String) (b r : String) (hfs : p.1 b = some r)
    (he : e.1 = b → e.2 = r) :
    (fwStep cfg p e).1 b = some r ∧
      (b ∈ (fwStep cfg p e).2 → b ∈ p.2) := by
  by_cases hb : e.1 = b
  · have hv : e.2 = r := he hb
    unfold fwStep
    rw [hb, hfs]
    dsimp only
    rw [if_pos hv.symm]
    exact ⟨hfs, fun x => x⟩
  · constructor
    · rw [fwStep_frame cfg p e b (fun hh => hb hh.symm)]
      exact hfs
    · unfold fwStep
      rcases p.1 e.1 with _ | existing
      · intro hmem
        rcases List.mem_append.mp hmem with hmem | hmem
        · exact hmem
        · exact absurd (List.mem_singleton.mp hmem).symm hb
      · dsimp only
        by_cases hex : existing = e.2
        · simp [hex]
        · by_cases how : cfg.overwrite_generated_source_rsts
          · simp only [hex, if_neg, if_pos how, if_false]
            intro hmem
            rcases List.mem_append.mp hmem with hmem | hmem
            · exact hmem
            · exact absurd (List.mem_singleton.mp hmem).symm hb
          · simp [hex, how]

theorem fwFold_stable_at (cfg : Config) (p : Fs × List String)
    (l : List (String × String)) (b r : String) :
    p.1 b = some r → (∀ e ∈ l, e.1 = b → e.2 = r) →
    (fwFold cfg p l).1 b = some r ∧
      (b ∈ (fwFold cfg p l).2 → b ∈ p.2) := by
  induction l generalizing p with
  | nil => intro hfs _; exact ⟨hfs, fun hm => hm⟩
  | cons e rest ih =>
    intro hfs hl
    have hstep := fwStep_stable_at cfg p e b r hfs (hl e (List.mem_cons_self _ _))
    have h1 : fwFold cfg p (e :: rest) = fwFold cfg (fwStep cfg p e) rest := rfl
    rw [h1]
    have hrec := ih (fwStep cfg p e) hstep.1
      (fun e' he' => hl e' (List.mem_cons_of_mem _ he'))
    exact ⟨hrec.1, fun hm => hstep.2 (hrec.2 hm)⟩

theorem fwStep_preserve_at (cfg : Config) (p : Fs × List String)
    (e : String × String) (b r : String)
    (hfs : ∃ c, p.1 b = some c ∧ (cfg.overwrite_generated_source_rsts = true → c = r))
    (he : e.1 = b → e.2 = r) :
    ∃ c, (fwStep cfg p e).1 b = some c ∧
      (cfg.overwrite_generated_source_rsts = true → c = r) := by
  obtain ⟨c, hc, hcr⟩ := hfs
  by_cases hb : e.1 = b
  · have hv : e.2 = r := he hb
    unfold fwStep
    rw [hb, hc]
    dsimp only
    by_cases hce : c = e.2
    · refine ⟨c, ?_, hcr⟩
      rw [if_pos hce]
      exact hc
    · rw [if_neg hce]
      by_cases how : cfg.overwrite_generated_source_rsts
      · refine ⟨e.2, ?_, fun _ => hv⟩
        rw [if_pos how]
        simp [fsWrite, hb]
      · refine ⟨c, ?_, hcr⟩
        rw [if_neg how]
        exact hc
  · refine ⟨c, ?_, hcr⟩
    rw [fwStep_frame cfg p e b (fun hh => hb hh.symm)]
    exact hc

theorem fwFold_preserve_at (cfg : Config) (p : Fs × List String)
    (l : List (String × String)) (b r : String) :
    (∃ c, p.1 b = some c ∧ (cfg.overwrite_generated_source_rsts = true → c = r)) →
    (∀ e ∈ l, e.1 = b → e.2 = r) →
    ∃ c, (fwFold cfg p l).1 b = some c ∧
      (cfg.overwrite_generated_source_rsts = true → c = r) := by
  induction l generalizing p with
  | nil => intro hfs _; exact hfs
  | cons e rest ih =>
    intro hfs hl
    have h1 : fwFold cfg p (e :: rest) = fwFold cfg (fwStep cfg p e) rest := rfl
    rw [h1]
    exact ih (fwStep cfg p e)
      (fwStep_preserve_at cfg p e b r hfs (hl e (List.mem_cons_self _ _)))
      (fun e' he' => hl e' (List.mem_cons_of_mem _ he'))

theorem fwStep_establish (cfg : Config) (p : Fs × List String) (b r : String) :
    ∃ c, (fwStep cfg p (b, r)).1 b = some c ∧
      (cfg.overwrite_generated_source_rsts = true → c = r) := by
  unfold fwStep
  rcases hfs : p.1 b with _ | existing
  · exact ⟨r, by simp [fsWrite], fun _ => rfl⟩
  · dsimp only
    by_cases he : existing = r
    · exact ⟨existing, by simp [he, hfs], fun _ => he⟩
    · by_cases how : cfg.overwrite_generated_source_rsts
      · exact ⟨r, by simp [he, how, fsWrite], fun _ => rfl⟩
      · exact ⟨existing, by simp [he, how, hfs],
          fun hcontra => absurd hcontra how⟩

theorem fwFold_post_at (cfg : Config) (p : Fs × List String)
    (l : List (String × String)) (b r : String) :
    (b, r) ∈ l → (∀ e ∈ l, e.1 = b → e.2 = r) →
    ∃ c, (fwFold cfg p l).1 b = some c ∧
      (cfg.overwrite_generated_source_rsts = true → c = r) := by
  induction l generalizing p with
  | nil => intro hb _; simp at hb
  | cons e rest ih =>
    intro hb hl
    have h1 : fwFold cfg p (e :: rest) = fwFold cfg (fwStep cfg p e) rest := rfl
    rw [h1]
    rcases List.mem_cons.mp hb with hb1 | hb2
    · cases hb1
      apply fwFold_preserve_at cfg _ rest b r
      · exact fwStep_establish cfg p b r
      · exact fun e' he' => hl e' (List.mem_cons_of_mem _ he')
    · exact ih (fwStep cfg p e) hb2 (fun e' he' => hl e' (List.mem_cons_of_mem _ he'))

theorem fwStep_id_of_good (cfg : Config) (p : Fs × List String)
    (e : String × String)
    (hg : ∃ c, p.1 e.1 = some c ∧
      (cfg.overwrite_generated_source_rsts = true → c = e.2)) :
    fwStep cfg p e = p := by
  obtain ⟨c, hc, hcr⟩ := hg
  unfold fwStep
  rw [hc]
  by_cases hce : c = e.2
  · simp [hce]
  · have how : cfg.overwrite_generated_source_rsts = false := by
      by_contra hcontra
      exact hce (hcr (by simpa using hcontra))
    simp [hce, how]

theorem fwFold_all_stable (cfg : Config) (p : Fs × List String)
    (l : List (String × String)) :
    (∀ e ∈ l, ∃ c, p.1 e.1 = some c ∧
      (cfg.overwrite_generated_source_rsts = true → c = e.2)) →
    fwFold cfg p l = p := by
  induction l generalizing p with
  | nil => intro _; rfl
  | cons e rest ih =>
    intro hg
    have h1 : fwFold cfg p (e :: rest) = fwFold cfg (fwStep cfg p e) rest := rfl
    have hid : fwStep cfg p e = p := fwStep_id_of_good cfg p e (hg e (List.mem_cons_self _ _))
    rw [h1, hid]
    exact ih p (fun e' he' => hg e' (List.mem_cons_of_mem _ he'))

theorem fwFold_no_overwrite (cfg : Config) (p : Fs × List String)
    (l : List (String × String)) (k : String) (c : String)
    (how : cfg.overwrite_generated_source_rsts = false) :
    p.1 k = some c → (fwFold cfg p l).1 k = some c := by
  induction l generalizing p with
  | nil => intro hc; exact hc
  | cons e rest ih =>
    intro hc
    have h1 : fwFold cfg p (e :: rest) = fwFold cfg (fwStep cfg p e) rest := rfl
    rw [h1]
    apply ih
    by_cases hk : k = e.1
    · unfold fwStep
      rw [← hk, hc]
      by_cases hce : c = e.2 <;> simp [hce, how, hc]
    · rw [fwStep_frame cfg p e k hk]
      exact hc

/-- A non-skipped module whose documenter import fails makes its visit
abort (either its own assertion fires, or a submodule visit already
aborted). -/
theorem pvRes_abort (h : Host) (cfg : Config) (m : PyModule)
    (hns : moduleSkipped cfg m.name m.moduleDoc = false)
    (hio : m.dat.importOk = false) : pvRes h cfg m = VRes.rAbort := by
  match m with
  | PyModule.mk n dat subs =>
    simp only [PyModule.name, PyModule.moduleDoc] at hns
    simp only [PyModule.dat] at hio
    simp only [pvRes, hns, Bool.false_eq_true, if_false]
    cases (if dat.isPkg then pvSubs h cfg subs else some []) <;> simp [hio]

/-- If some root module's visit aborts, the whole loop aborts. -/
theorem pvSubs_none_of_abort (h : Host) (cfg : Config) (ms : PyForest)
    (m : PyModule) (hm : m ∈ ms.toList)
    (habm : pvRes h cfg m = VRes.rAbort) :
    pvSubs h cfg ms = none := by
  match ms with
  | PyForest.nil => simp [PyForest.toList] at hm
  | PyForest.cons m0 rest =>
    rcases List.mem_cons.mp (by simpa [PyForest.toList] using hm) with rfl | hr
    · simp [pvSubs, habm]
    · cases hres : pvRes h cfg m0 with
      | rAbort => simp [pvSubs, hres]
      | rTrue =>
        simp [pvSubs, hres, pvSubs_none_of_abort h cfg rest m hr habm]
      | rFalse =>
        simp [pvSubs, hres, pvSubs_none_of_abort h cfg rest m hr habm]
      | rNone =>
        simp [pvSubs, hres, pvSubs_none_of_abort h cfg rest m hr habm]

/-- A module that reaches its file step contributes its own
(basename, rendered text) pair to its rendered-file list. -/
theorem pvRendered_own_mem (h : Host) (cfg : Config) (m : PyModule) (r : String)
    (hr : pvRst h cfg m = some r) :
    (m.name ++ ".rst", r) ∈ pvRendered h cfg m := by
  match m with
  | PyModule.mk n dat subs =>
    simp only [pvRst] at hr
    simp only [pvRendered, PyModule.name]
    cases hsk : moduleSkipped cfg n dat.doc
    · rw [hsk] at hr
      simp only [Bool.false_eq_true, if_false] at hr ⊢
      cases hes : (if dat.isPkg then pvSubs h cfg subs else some []) with
      | none => rw [hes] at hr; simp at hr
      | some es =>
        rw [hes] at hr
        simp only at hr ⊢
        cases hok : dat.importOk
        · rw [hok] at hr; simp at hr
        · rw [hok] at hr
          simp only [if_true] at hr ⊢
          rw [hr]
          simp
    · rw [hsk] at hr; simp at hr

/-- Any file-step pair of a member of a forest is a file-step pair of
the forest's loop, provided the loop does not abort before reaching
that member. -/
theorem pvRenderedSubs_mem (h : Host) (cfg : Config) (ms : PyForest)
    (m : PyModule) (x : String × String) (hm : m ∈ ms.toList)
    (hx : x ∈ pvRendered h cfg m)
    (hab : (pvSubs h cfg ms).isNone = false) :
    x ∈ pvRenderedSubs h cfg ms := by
  match ms with
  | PyForest.nil => simp [PyForest.toList] at hm
  | PyForest.cons m0 rest =>
    rcases List.mem_cons.mp (by simpa [PyForest.toList] using hm) with rfl | hrest
    · simp only [pvRenderedSubs]
      exact List.mem_append_left _ hx
    · cases hres : pvRes h cfg m0 with
      | rAbort => rw [pvSubs, hres] at hab; simp at hab
      | rTrue =>
        have hab2 : (pvSubs h cfg rest).isNone = false := by
          rw [pvSubs, hres] at hab
          cases h2 : pvSubs h cfg rest
          · rw [h2] at hab; simp at hab
          · rfl
        simp only [pvRenderedSubs, hres]
        exact List.mem_append_right _ (pvRenderedSubs_mem h cfg rest m x hrest hx hab2)
      | rFalse =>
        have hab2 : (pvSubs h cfg rest).isNone = false := by
          rw [pvSubs, hres] at hab
          exact hab
        simp only [pvRenderedSubs, hres]
        exact List.mem_append_right _ (pvRenderedSubs_mem h cfg rest m x hrest hx hab2)
      | rNone =>
        have hab2 : (pvSubs h cfg rest).isNone = false := by
          rw [pvSubs, hres] at hab
          exact hab
        simp only [pvRenderedSubs, hres]
        exact List.mem_append_right _ (pvRenderedSubs_mem h cfg rest m x hrest hx hab2)

/-- Any file-step pair of the submodule loop of a visited, non-skipped
package is a file-step pair of the package's own visit: descendants'
file steps are part of the parent's. -/
theorem pvRendered_sub_mem (h : Host) (cfg : Config) (n : String)
    (dat : ModuleData) (subs : PyForest) (x : String × String)
    (hns : moduleSkipped cfg n dat.doc = false)
    (hp : dat.isPkg = true)
    (hx : x ∈ pvRenderedSubs h cfg subs) :
    x ∈ pvRendered h cfg (PyModule.mk n dat subs) := by
  simp only [pvRendered, hns, hp, Bool.false_eq_true, if_false, if_true]
  cases hes : pvSubs h cfg subs with
  | none => simpa using hx
  | some es =>
    cases hok : dat.importOk
    · simpa using hx
    · simp only [if_true]
      cases hw : pvOwn h cfg n dat es with
      | none => simpa using hx
      | some rOwn =>
        have hgoal : x ∈ pvRenderedSubs h cfg subs ∨ x = (n ++ ".rst", rOwn) :=
          Or.inl hx
        simpa using hgoal

/-- A completed run implies: the directory assertion passed, the module
list is non-empty and no visit aborted. -/
theorem generate_done_conditions (h : Host) (cfg : Config) (fs0 : Fs)
    (hdone : (generate h cfg fs0).2 = none) :
    ¬ h.normpath cfg.generated_source_dir = h.normpath "." ∧
      cfg.modules.isNil = false ∧
      (pvSubs h cfg cfg.modules).isNone = false := by
  by_cases hdir : h.normpath cfg.generated_source_dir = h.normpath "."
  · exfalso
    unfold generate at hdone
    rw [if_pos hdir] at hdone
    simp at hdone
  · refine ⟨hdir, ?_⟩
    unfold generate at hdone
    rw [if_neg hdir] at hdone
    rcases hm : cfg.modules with _ | ⟨m0, rest0⟩
    · rw [hm] at hdone
      simp at hdone
    · rw [hm] at hdone
      constructor
      · rfl
      · dsimp only at hdone
        rw [runVisits_eq h cfg _ (PyForest.cons m0 rest0)] at hdone
        cases hab : (pvSubs h cfg (PyForest.cons m0 rest0)).isNone
        · rfl
        · rw [hab] at hdone
          simp at hdone

/-- Per-option rendering as the amended specification describes it:
boolean false is omitted, boolean true and None render as bare flags,
a string value renders as flag-with-value. -/
def option_line_amended (k : String) (v : PyVal) : String :=
  match v with
  | PyVal.pyFalse => ""
  | PyVal.pyTrue => "   :" ++ k ++ ":" ++ "\n"
  | PyVal.pyNone => "   :" ++ k ++ ":" ++ "\n"
  | PyVal.pyStr s => "   :" ++ k ++ ":" ++ " " ++ s ++ "\n"

theorem join_cons (a : String) (l : List String) :
    String.join (a :: l) = a ++ String.join l := by
  apply String.ext
  simp

theorem options_foldl_join (l : List (String × PyVal)) (acc : String) :
    l.foldl
      (fun result kv =>
        match kv.2 with
        | PyVal.pyFalse => result
        | PyVal.pyTrue => result ++ "   :" ++ kv.1 ++ ":" ++ "\n"
        | PyVal.pyNone => result ++ "   :" ++ kv.1 ++ ":" ++ "\n"
        | PyVal.pyStr s => result ++ "   :" ++ kv.1 ++ ":" ++ " " ++ s ++ "\n")
      acc =
      acc ++ String.join (l.map (fun kv => option_line_amended kv.1 kv.2)) := by
  induction l generalizing acc with
  | nil => simp [String.join, String.append_empty]
  | cons kv rest ih =>
    rw [List.foldl_cons, List.map_cons, join_cons, ih]
    cases hv : kv.2 <;>
      simp [option_line_amended, String.append_assoc, String.empty_append]

/-
Shared concrete fixtures for the end-to-end witnesses.
-/

/-- A host whose escape and normpath do nothing (valid instances of the
opaque host services). -/
def hostId : Host := { escape := id, normpath := id }

/-- An empty generated_source_dir. -/
def fsEmpty : Fs := fun _ => none

/-- The fresh session state. -/
def emptySt : GenState :=
  { fs := fsEmpty, rst_files_generated := [], documented_items := [],
    rst_writes := [] }

/-- Host data of a leaf module with no members. -/
def datLeaf : ModuleData :=
  { doc := none, isPkg := false, importOk := true, attrDocs := [], members := [] }

/-- A leaf module named m. -/
def modLeaf : PyModule := PyModule.mk "m" datLeaf PyForest.nil

/-- A baseline configuration: one root module m, defaults otherwise. -/
def cfgBase : Config :=
  { modules := PyForest.cons modLeaf PyForest.nil
    generated_source_dir := "autodocgen"
    overwrite_generated_source_rsts := true
    skip_module_regex := none
    skip_on_docstring_regex := none
    module_title_decider := fun n => n
    autodoc_options_decider := fun _ _ _ _ d => some d
    write_documented_items_output_file := none
    autodoc_imported_members := false }

/-
Claim theorems.
-/

/-- C1 (amended): generate_module_rst signals no output (returns None)
exactly when the classified-member mapping itself is empty; a mapping
that still has its kind buckets — even all-empty ones, as visit_module
always passes — yields an output string. -/
theorem C1_no_output_iff_empty_mapping (h : Host) (cfg : Config) (n : String)
    (bs : Buckets) :
    generate_module_rst h cfg n bs = none ↔ bs = [] := by
  cases bs <;> simp [generate_module_rst]

/-- C1 counterexample: a visited, non-skipped module with zero retained
members in every kind bucket is still rendered — the renderer returns a
header string rather than the no-output signal, a file for the module
is written, and the run completes. -/
theorem C1_counterexample :
    (generate_module_rst hostId cfgBase "m"
        (doc_module_member_types.map (fun t => (t, [])))).isSome = true ∧
    ((generate hostId cfgBase fsEmpty).1.fs "m.rst").isSome = true ∧
    (generate hostId cfgBase fsEmpty).2 = none := by
  exact ⟨rfl, rfl, rfl⟩

/-- The failing input for C2: an ordinary exception class, that is, a
class object that is a subclass of BaseException; like every class with
the default metaclass it is not an instance of BaseException. -/
def excClassObj : PyObject :=
  { isClassAttr := true, isInstBaseException := false,
    isSubclassBaseException := true, isModuleAttr := false,
    isFunctionAttr := false, definedModule := some "m", doc := none }

/-- C2: evaluating the classification at the failing input: the member
is a retained class and an exception type, yet the code classifies it
as class, because line 344 tests isinstance(m, BaseException) — false
for every ordinary class object — where the specified priority of
exception over class requires issubclass. -/
theorem C2_exception_classified_as_class :
    memberTypeOf false excClassObj = some "class" ∧
    excClassObj.isClassAttr = true ∧
    excClassObj.isSubclassBaseException = true := by
  exact ⟨rfl, rfl, rfl⟩

/-- C3: a module skipped by the name-pattern rule or the
docstring-pattern rule makes visit_module return False immediately,
with the session state (files, generated set, documented items, write
log) untouched: no submodule recursion, member enumeration or file
write happens, so the skipped subtree contributes no output units. -/
theorem C3_skip_suppresses_subtree (h : Host) (cfg : Config) (st : GenState)
    (m : PyModule)
    (hskip : moduleSkipped cfg m.name m.moduleDoc = true) :
    visit_module h cfg st m = (st, VRes.rFalse) := by
  match m with
  | PyModule.mk n dat subs =>
    simp only [PyModule.name, PyModule.moduleDoc] at hskip
    simp [visit_module, hskip]

/-- A configuration that skips module names starting with pkg dot
underscore, modelling the default name pattern. -/
def cfgSkipW : Config :=
  { cfgBase with skip_module_regex := some (fun n => n == "pkg._x") }

/-- A package module matching the skip pattern, with a child that would
otherwise be rendered. -/
def modSkipW : PyModule :=
  PyModule.mk "pkg._x" { datLeaf with isPkg := true }
    (PyForest.cons (PyModule.mk "pkg._x.sub" datLeaf PyForest.nil) PyForest.nil)

/-- Witness for C3 at a concrete skipped package with a child module:
the visit returns False and the state is unchanged. -/
theorem C3_skip_suppresses_subtree_witness :
    visit_module hostId cfgSkipW emptySt modSkipW = (emptySt, VRes.rFalse) :=
  C3_skip_suppresses_subtree hostId cfgSkipW emptySt modSkipW rfl

/-- A configuration whose decider answers the option value None for the
members flag. -/
def cfgOptNone : Config :=
  { cfgBase with autodoc_options_decider :=
      fun _ _ _ _ _ => some [("members", PyVal.pyNone)] }

/-- A configuration whose decider answers boolean true for the members
flag. -/
def cfgOptTrue : Config :=
  { cfgBase with autodoc_options_decider :=
      fun _ _ _ _ _ => some [("members", PyVal.pyTrue)] }

/-- C7 counterexample: an option whose value is None — not a boolean —
renders as a bare flag line, byte-identical to the boolean-true
rendering and with no value text after the flag, refuting the claim
that every non-boolean value renders as flag-with-value. -/
theorem C7_counterexample :
    get_module_member_rst hostId cfgOptNone "class" "m.C"
        (MemberRef.obj excClassObj) none =
      "\nC\n=\n\n.. autoclass:: C\n   :members:\n" ∧
    get_module_member_rst hostId cfgOptNone "class" "m.C"
        (MemberRef.obj excClassObj) none =
      get_module_member_rst hostId cfgOptTrue "class" "m.C"
        (MemberRef.obj excClassObj) none := by
  exact ⟨by decide, rfl⟩

/-- C7 (amended): the rendered member block is the heading-directive
header followed by one rendered line per option returned by the decider
(with the stated defaults: members shown for class and exception kinds,
hidden otherwise), where boolean false is omitted, boolean true and
None render as bare flags, and a string value renders as
flag-with-value. -/
theorem C7_option_rendering (h : Host) (cfg : Config) (t qn : String)
    (o : MemberRef) (d : Option String) :
    get_module_member_rst h cfg t qn o d =
      memberHeaderStr h t qn ++
        String.join ((resolvedOptions cfg t qn o d).map
          (fun kv => option_line_amended kv.1 kv.2)) ∧
    memberDefaults t =
      [("members", if t == "class" || t == "exception" then PyVal.pyTrue
                   else PyVal.pyFalse)] := by
  constructor
  · unfold get_module_member_rst
    exact options_foldl_join (resolvedOptions cfg t qn o d) (memberHeaderStr h t qn)
  · rfl

/-- C10: when the configured decider returns None for a member, the
rendered block is identical to the one produced by a decider returning
the default options unchanged. -/
theorem C10_none_decider_means_defaults (h : Host) (cfga cfgb : Config)
    (t qn : String) (o : MemberRef) (d : Option String)
    (hnone : cfga.autodoc_options_decider t qn o d (memberDefaults t) = none)
    (hdef : cfgb.autodoc_options_decider t qn o d (memberDefaults t) =
      some (memberDefaults t)) :
    get_module_member_rst h cfga t qn o d = get_module_member_rst h cfgb t qn o d := by
  unfold get_module_member_rst resolvedOptions
  rw [hnone, hdef]

/-- A configuration whose decider returns None for every member. -/
def cfgDecNone : Config :=
  { cfgBase with autodoc_options_decider := fun _ _ _ _ _ => none }

/-- Witness for C10 at a concrete member: the None-returning decider and
the defaults-returning decider of cfgBase render identically. -/
theorem C10_none_decider_means_defaults_witness :
    get_module_member_rst hostId cfgDecNone "class" "m.C"
        (MemberRef.obj excClassObj) none =
      get_module_member_rst hostId cfgBase "class" "m.C"
        (MemberRef.obj excClassObj) none :=
  C10_none_decider_means_defaults hostId cfgDecNone cfgBase "class" "m.C"
    (MemberRef.obj excClassObj) none rfl rfl

/-- C8: (i) when the output directory normalizes to the documentation
root, generate aborts with the wipe-out assertion before any file is
written or deleted (the returned state is the initial one with empty
logs); (ii) when the root-module list is empty (and the directory check
passed), generate aborts with the no-modules assertion, again before
any file operation; (iii) when a root module is not skipped and its
documenter import fails, the run aborts. -/
theorem C8_fatal_config_aborts :
    (∀ (h : Host) (cfg : Config) (fs0 : Fs),
      h.normpath cfg.generated_source_dir = h.normpath "." →
      generate h cfg fs0 =
        ({ fs := fs0, rst_files_generated := [], documented_items := [],
           rst_writes := [] },
         some "Cannot use current path as generated_source_dir - everything would be wiped out!")) ∧
    (∀ (h : Host) (cfg : Config) (fs0 : Fs),
      ¬ h.normpath cfg.generated_source_dir = h.normpath "." →
      cfg.modules = PyForest.nil →
      generate h cfg fs0 =
        ({ fs := fs0, rst_files_generated := [], documented_items := [],
           rst_writes := [] }, some "no modules")) ∧
    (∀ (h : Host) (cfg : Config) (fs0 : Fs) (m : PyModule),
      m ∈ cfg.modules.toList →
      moduleSkipped cfg m.name m.moduleDoc = false →
      m.dat.importOk = false →
      (generate h cfg fs0).2 ≠ none) := by
  refine ⟨?_, ?_, ?_⟩
  · intro h cfg fs0 hdir
    unfold generate
    rw [if_pos hdir]
  · intro h cfg fs0 hdir hmods
    unfold generate
    rw [if_neg hdir, hmods]
  · intro h cfg fs0 m hm hns hio hdone
    obtain ⟨hdir, hnil, hab⟩ := generate_done_conditions h cfg fs0 hdone
    have habm : pvSubs h cfg cfg.modules = none :=
      pvSubs_none_of_abort h cfg cfg.modules m hm (pvRes_abort h cfg m hns hio)
    rw [habm] at hab
    simp at hab

/-- A configuration whose output directory is the documentation root. -/
def cfgDotDir : Config := { cfgBase with generated_source_dir := "." }

/-- A configuration with an empty root-module list. -/
def cfgNoMods : Config := { cfgBase with modules := PyForest.nil }

/-- A root module whose documenter import fails. -/
def modNoImport : PyModule :=
  PyModule.mk "m" { datLeaf with importOk := false } PyForest.nil

/-- A configuration whose sole root module fails to import. -/
def cfgNoImport : Config :=
  { cfgBase with modules := PyForest.cons modNoImport PyForest.nil }

/-- Witness for C8 at concrete configurations: the dot-directory abort,
the empty-module-list abort, and the failed-import abort. -/
theorem C8_fatal_config_aborts_witness :
    generate hostId cfgDotDir fsEmpty =
      (emptySt,
       some "Cannot use current path as generated_source_dir - everything would be wiped out!") ∧
    generate hostId cfgNoMods fsEmpty = (emptySt, some "no modules") ∧
    (generate hostId cfgNoImport fsEmpty).2 ≠ none := by
  refine ⟨C8_fatal_config_aborts.1 hostId cfgDotDir fsEmpty rfl,
    C8_fatal_config_aborts.2.1 hostId cfgNoMods fsEmpty (by decide) rfl,
    C8_fatal_config_aborts.2.2 hostId cfgNoImport fsEmpty modNoImport
      (List.mem_cons_self _ _) rfl rfl⟩

/-- C5: after a completed run, a file that existed in the output
directory before the run still exists iff it was produced during this
run — registered in rst_files_generated, or written as the configured
diagnostic listing; every other file is deleted by the cleanup pass. -/
theorem C5_stale_file_invariant (h : Host) (cfg : Config) (fs0 : Fs) (k : String)
    (hdone : (generate h cfg fs0).2 = none)
    (hpre : (fs0 k).isSome = true) :
    ((generate h cfg fs0).1.fs k).isSome = true ↔
      (k ∈ (generate h cfg fs0).1.rst_files_generated ∨
        cfg.write_documented_items_output_file = some k) := by
  obtain ⟨hdir, hnil, hab⟩ := generate_done_conditions h cfg fs0 hdone
  rw [generate_run_eq h cfg fs0 hdir hnil hab]
  dsimp only
  unfold runFinalFs
  have hfstOf : k ∈ runGen h cfg → k ∈ (runL h cfg).map Prod.fst := by
    intro hgen
    have h2 := (mem_insertAll [] ((runL h cfg).map Prod.fst) k).mp hgen
    simpa using h2
  cases hd : cfg.write_documented_items_output_file with
  | none =>
    dsimp only
    simp only [runClean]
    constructor
    · intro hs
      by_cases hc : (runGen h cfg).contains k = true
      · exact Or.inl ((contains_iff_mem _ _).mp hc)
      · rw [if_neg hc] at hs
        simp at hs
    · intro hmem
      rcases hmem with hgen | hdiag
      · rw [if_pos ((contains_iff_mem _ _).mpr hgen)]
        exact fwFold_mem_isSome cfg (fs0, []) (runL h cfg) k (hfstOf hgen)
      · simp at hdiag
  | some fname =>
    dsimp only
    simp only [fsWrite, runClean]
    constructor
    · intro hs
      by_cases hkf : (k == fname) = true
      · have hk : k = fname := by simpa using hkf
        exact Or.inr (by rw [hk])
      · rw [if_neg hkf] at hs
        by_cases hc : (runGen h cfg).contains k = true
        · exact Or.inl ((contains_iff_mem _ _).mp hc)
        · rw [if_neg hc] at hs
          simp at hs
    · intro hmem
      by_cases hkf : (k == fname) = true
      · rw [if_pos hkf]
        rfl
      · rw [if_neg hkf]
        rcases hmem with hgen | hdiag
        · rw [if_pos ((contains_iff_mem _ _).mpr hgen)]
          exact fwFold_mem_isSome cfg (fs0, []) (runL h cfg) k (hfstOf hgen)
        · have hfk : fname = k := by injection hdiag
          rw [hfk] at hkf
          simp at hkf

/-- A pre-run output directory holding one stale file. -/
def fsStale : Fs := fun q => if q == "stale.rst" then some "old" else none

/-- Witness for C5 at a concrete run: the stale file that existed
before the run is gone afterwards, matching the right side (it is
neither registered nor the diagnostic file). -/
theorem C5_stale_file_invariant_witness :
    ((generate hostId cfgBase fsStale).1.fs "stale.rst").isSome = true ↔
      ("stale.rst" ∈ (generate hostId cfgBase fsStale).1.rst_files_generated ∨
        cfgBase.write_documented_items_output_file = some "stale.rst") :=
  C5_stale_file_invariant hostId cfgBase fsStale "stale.rst" rfl rfl

/-- C9: for every visited, non-skipped module that reaches the
rendering step during the run — a root module or a package submodule at
any depth — the output basename is added to rst_files_generated before
the content comparison and overwrite-policy checks, so after a
completed run the file is registered and still exists, even when the
per-module write itself was suppressed because the content already
matched or the preserve-existing policy was set.  The modules reaching
the rendering step are exactly those contributing a
(basename, rendered text) pair to the run's file-step list runL: the
master theorems visit_module_eq and runVisits_eq show the run performs
exactly these file steps, pvRendered_own_mem shows a module reaching
its file step contributes its own pair, and pvRendered_sub_mem with
pvRenderedSubs_mem lift a descendant's pair through its visited
ancestors to runL. -/
theorem C9_registered_before_write_checks (h : Host) (cfg : Config) (fs0 : Fs)
    (m : PyModule) (r : String)
    (hdone : (generate h cfg fs0).2 = none)
    (hvis : (m.name ++ ".rst", r) ∈ runL h cfg) :
    (m.name ++ ".rst") ∈ (generate h cfg fs0).1.rst_files_generated ∧
      ((generate h cfg fs0).1.fs (m.name ++ ".rst")).isSome = true := by
  obtain ⟨hdir, hnil, hab⟩ := generate_done_conditions h cfg fs0 hdone
  rw [generate_run_eq h cfg fs0 hdir hnil hab]
  dsimp only
  have hfst : (m.name ++ ".rst") ∈ (runL h cfg).map Prod.fst :=
    List.mem_map_of_mem Prod.fst hvis
  have hgen : (m.name ++ ".rst") ∈ runGen h cfg := by
    unfold runGen
    rw [mem_insertAll]
    exact Or.inr hfst
  refine ⟨hgen, ?_⟩
  unfold runFinalFs
  cases hd : cfg.write_documented_items_output_file with
  | none =>
    dsimp only
    simp only [runClean]
    rw [if_pos ((contains_iff_mem _ _).mpr hgen)]
    exact fwFold_mem_isSome cfg (fs0, []) (runL h cfg) _ hfst
  | some fname =>
    dsimp only
    simp only [fsWrite, runClean]
    by_cases hkf : ((m.name ++ ".rst") == fname) = true
    · rw [if_pos hkf]
      rfl
    · rw [if_neg hkf]
      rw [if_pos ((contains_iff_mem _ _).mpr hgen)]
      exact fwFold_mem_isSome cfg (fs0, []) (runL h cfg) _ hfst

/-- The header-only rendered text of the memberless module m. -/
def rstLeaf : String :=
  "\nm\n~\n\n.. automodule:: m\n\n.. currentmodule:: m\n\n"

/-- A pre-run output directory already holding the up-to-date output of
module m, so the run suppresses the write. -/
def fsPre : Fs := fun q => if q == "m.rst" then some rstLeaf else none

/-- Host data of a memberless package. -/
def datPkg : ModuleData :=
  { doc := none, isPkg := true, importOk := true, attrDocs := [], members := [] }

/-- A leaf submodule of the package pkg. -/
def modSub : PyModule := PyModule.mk "pkg.sub" datLeaf PyForest.nil

/-- A package module pkg with the single submodule pkg.sub. -/
def modPkg : PyModule :=
  PyModule.mk "pkg" datPkg (PyForest.cons modSub PyForest.nil)

/-- The baseline configuration with the package pkg as its root. -/
def cfgPkg : Config := { cfgBase with modules := PyForest.cons modPkg PyForest.nil }

/-- The header-only rendered text of the memberless submodule pkg.sub. -/
def rstSub : String :=
  "\npkg.sub\n~~~~~~~\n\n.. automodule:: pkg.sub\n\n.. currentmodule:: pkg.sub\n\n"

/-- A pre-run output directory already holding the up-to-date output of
the submodule pkg.sub, so the run suppresses that write. -/
def fsPreSub : Fs := fun q => if q == "pkg.sub.rst" then some rstSub else none

/-- Witness for C9 at a concrete run whose rendered module is a package
submodule, not a root, and whose per-module write is suppressed by the
content comparison: the submodule's file is registered and survives the
cleanup. -/
theorem C9_registered_before_write_checks_witness :
    (modSub.name ++ ".rst") ∈
        (generate hostId cfgPkg fsPreSub).1.rst_files_generated ∧
      ((generate hostId cfgPkg fsPreSub).1.fs (modSub.name ++ ".rst")).isSome = true :=
  C9_registered_before_write_checks hostId cfgPkg fsPreSub modSub rstSub rfl
    (by decide)

/-- C6: (i) with the preserve-existing policy
(overwrite_generated_source_rsts = false) a visit never changes the
content of any existing file, regardless of whether it differs from the
rendered text; (ii) when the module's output file already holds exactly
the newly rendered text (and no other module of the subtree renders to
the same basename with different text), the file content is unchanged
and no write for that basename is logged: the file is rewritten only if
its content differs. -/
theorem C6_rewrite_only_if_differs (h : Host) (cfg : Config) (st : GenState)
    (m : PyModule) (r : String) :
    (cfg.overwrite_generated_source_rsts = false →
      ∀ k c, st.fs k = some c → (visit_module h cfg st m).1.fs k = some c) ∧
    (st.rst_writes = [] →
      (∀ p ∈ pvRendered h cfg m, p.1 = m.name ++ ".rst" → p.2 = r) →
      pvRst h cfg m = some r →
      st.fs (m.name ++ ".rst") = some r →
      (visit_module h cfg st m).1.fs (m.name ++ ".rst") = some r ∧
        (m.name ++ ".rst") ∉ (visit_module h cfg st m).1.rst_writes) := by
  constructor
  · intro how k c hc
    rw [visit_module_eq]
    dsimp only
    exact fwFold_no_overwrite cfg (st.fs, st.rst_writes) (pvRendered h cfg m) k c how hc
  · intro hw hcons hr hfs
    rw [visit_module_eq]
    dsimp only
    have hst := fwFold_stable_at cfg (st.fs, st.rst_writes) (pvRendered h cfg m)
      (m.name ++ ".rst") r hfs hcons
    refine ⟨hst.1, fun hmem => ?_⟩
    have hmem2 := hst.2 hmem
    rw [hw] at hmem2
    simp at hmem2

/-- The baseline configuration with the preserve-existing policy. -/
def cfgNoOverwrite : Config :=
  { cfgBase with overwrite_generated_source_rsts := false }

/-- A session state whose directory holds a hand-edited file differing
from the rendered text. -/
def stEdited : GenState :=
  { fs := fun q => if q == "m.rst" then some "custom" else none,
    rst_files_generated := [], documented_items := [], rst_writes := [] }

/-- A session state whose directory holds exactly the rendered text of
module m. -/
def stMatching : GenState :=
  { fs := fsPre, rst_files_generated := [], documented_items := [],
    rst_writes := [] }

/-- Witness for C6 at concrete visits: under the preserve policy the
hand-edited content survives the visit; under the default policy a file
whose content equals the rendered text is left unchanged and unlogged. -/
theorem C6_rewrite_only_if_differs_witness :
    (visit_module hostId cfgNoOverwrite stEdited modLeaf).1.fs "m.rst" =
        some "custom" ∧
      ((visit_module hostId cfgBase stMatching modLeaf).1.fs
          (modLeaf.name ++ ".rst") = some rstLeaf ∧
        (modLeaf.name ++ ".rst") ∉
          (visit_module hostId cfgBase stMatching modLeaf).1.rst_writes) :=
  ⟨(C6_rewrite_only_if_differs hostId cfgNoOverwrite stEdited modLeaf "").1
      rfl "m.rst" "custom" rfl,
    (C6_rewrite_only_if_differs hostId cfgBase stMatching modLeaf rstLeaf).2
      rfl (by decide) (by decide) rfl⟩

/-- A configuration whose diagnostic listing filename collides with the
output file of module m. -/
def cfgDiagClash : Config :=
  { cfgBase with write_documented_items_output_file := some "m.rst" }

/-- C4 counterexample: with unchanged configuration and unchanged
module inputs, but a diagnostic filename equal to a module output name,
the first run completes and the second run performs a per-module
rewrite (the diagnostic listing, written after the cleanup, clobbered
the module file, so the second run's content comparison fails). -/
theorem C4_counterexample :
    (generate hostId cfgDiagClash fsEmpty).2 = none ∧
    (generate hostId cfgDiagClash
        (generate hostId cfgDiagClash fsEmpty).1.fs).1.rst_writes ≠ [] := by
  exact ⟨rfl, by decide⟩

/-- If the second run's visits leave the first run's final file system
untouched, the second run's cleanup and diagnostic write reproduce it
exactly. -/
theorem runFinal_fixpoint (h : Host) (cfg : Config) (fs0 : Fs)
    (hfix : runFsV h cfg (runFinalFs h cfg fs0) = runFinalFs h cfg fs0)
    (k : String) :
    runFinalFs h cfg (runFinalFs h cfg fs0) k = runFinalFs h cfg fs0 k := by
  cases hd : cfg.write_documented_items_output_file with
  | none =>
    have hR1 : ∀ g : Fs, runFinalFs h cfg g = runClean h cfg g := by
      intro g; unfold runFinalFs; rw [hd]
    have hfb := hfix
    rw [hR1] at hfb
    have hfixk := congrFun hfb
    rw [hR1, hR1]
    show (if (runGen h cfg).contains k = true
          then runFsV h cfg (runClean h cfg fs0) k else none) =
        runClean h cfg fs0 k
    rw [hfixk k]
    by_cases hc : (runGen h cfg).contains k = true
    · rw [if_pos hc]
    · rw [if_neg hc]
      show (none : Option String) =
        (if (runGen h cfg).contains k = true then runFsV h cfg fs0 k else none)
      rw [if_neg hc]
  | some fname =>
    have hR2 : ∀ g : Fs, runFinalFs h cfg g =
        fsWrite (runClean h cfg g) fname (sortedJoin (runDoc h cfg)) := by
      intro g; unfold runFinalFs; rw [hd]
    have hfb := hfix
    rw [hR2] at hfb
    have hfixk := congrFun hfb
    rw [hR2, hR2]
    show (if (k == fname) = true
          then some (sortedJoin (runDoc h cfg))
          else runClean h cfg
            (fsWrite (runClean h cfg fs0) fname (sortedJoin (runDoc h cfg))) k) =
        (if (k == fname) = true
          then some (sortedJoin (runDoc h cfg))
          else runClean h cfg fs0 k)
    by_cases hkf : (k == fname) = true
    · rw [if_pos hkf, if_pos hkf]
    · rw [if_neg hkf, if_neg hkf]
      show (if (runGen h cfg).contains k = true
            then runFsV h cfg
              (fsWrite (runClean h cfg fs0) fname (sortedJoin (runDoc h cfg))) k
            else none) = runClean h cfg fs0 k
      rw [hfixk k]
      by_cases hc : (runGen h cfg).contains k = true
      · rw [if_pos hc]
        show (if (k == fname) = true
              then some (sortedJoin (runDoc h cfg))
              else runClean h cfg fs0 k) = runClean h cfg fs0 k
        rw [if_neg hkf]
      · rw [if_neg hc]
        show (none : Option String) =
          (if (runGen h cfg).contains k = true then runFsV h cfg fs0 k else none)
        rw [if_neg hc]

/-- C4 (amended): provided the diagnostic filename, when configured, is
not one of the generated module basenames, and each basename is
rendered with a single content (as holds in Python, where a module name
identifies one module), running generation a second time with unchanged
configuration and inputs completes, leaves every output file
byte-identical, and performs zero per-module writes: every write is
suppressed by the existing-file content comparison or the overwrite
policy. -/
theorem C4_second_run_idempotent (h : Host) (cfg : Config) (fs0 : Fs)
    (hdone : (generate h cfg fs0).2 = none)
    (hcons : ∀ p ∈ runL h cfg, ∀ q ∈ runL h cfg, p.1 = q.1 → p.2 = q.2)
    (hdiag : ∀ fname, cfg.write_documented_items_output_file = some fname →
      fname ∉ (runL h cfg).map Prod.fst) :
    (generate h cfg (generate h cfg fs0).1.fs).2 = none ∧
    (∀ k, (generate h cfg (generate h cfg fs0).1.fs).1.fs k =
      (generate h cfg fs0).1.fs k) ∧
    (generate h cfg (generate h cfg fs0).1.fs).1.rst_writes = [] := by
  obtain ⟨hdir, hnil, hab⟩ := generate_done_conditions h cfg fs0 hdone
  have hrun1 := generate_run_eq h cfg fs0 hdir hnil hab
  have hgood : ∀ e ∈ runL h cfg, ∃ c,
      runFinalFs h cfg fs0 e.1 = some c ∧
        (cfg.overwrite_generated_source_rsts = true → c = e.2) := by
    intro e he
    have hmemE : (e.1, e.2) ∈ runL h cfg := by rw [Prod.mk.eta]; exact he
    have hconsE : ∀ q ∈ runL h cfg, q.1 = e.1 → q.2 = e.2 :=
      fun q hq hq1 => hcons q hq e he hq1
    obtain ⟨c, hc, hcr⟩ :=
      fwFold_post_at cfg (fs0, []) (runL h cfg) e.1 e.2 hmemE hconsE
    have hfstE : e.1 ∈ (runL h cfg).map Prod.fst :=
      List.mem_map_of_mem Prod.fst he
    have hgenE : e.1 ∈ runGen h cfg := by
      unfold runGen
      rw [mem_insertAll]
      exact Or.inr hfstE
    refine ⟨c, ?_, hcr⟩
    unfold runFinalFs
    cases hd : cfg.write_documented_items_output_file with
    | none =>
      simp only [runClean]
      rw [if_pos ((contains_iff_mem _ _).mpr hgenE)]
      exact hc
    | some fname =>
      have hne : ¬ (e.1 == fname) = true := by
        intro hbeq
        have heq : e.1 = fname := by simpa using hbeq
        exact (hdiag fname hd) (heq ▸ hfstE)
      simp only [fsWrite, runClean]
      rw [if_neg hne, if_pos ((contains_iff_mem _ _).mpr hgenE)]
      exact hc
  have hstab : fwFold cfg (runFinalFs h cfg fs0, []) (runL h cfg) =
      (runFinalFs h cfg fs0, []) :=
    fwFold_all_stable cfg _ (runL h cfg) hgood
  have hv1 : runFsV h cfg (runFinalFs h cfg fs0) = runFinalFs h cfg fs0 :=
    congrArg Prod.fst hstab
  have hrun2 := generate_run_eq h cfg (runFinalFs h cfg fs0) hdir hnil hab
  rw [hrun1]
  dsimp only
  rw [hrun2]
  dsimp only
  exact ⟨rfl, fun k => runFinal_fixpoint h cfg fs0 hv1 k,
    congrArg Prod.snd hstab⟩

/-- Witness for C4 at the baseline configuration: the second run
completes, its output for module m is byte-identical to the first
run's, and no per-module write occurs. -/
theorem C4_second_run_idempotent_witness :
    (generate hostId cfgBase (generate hostId cfgBase fsEmpty).1.fs).2 = none ∧
    (generate hostId cfgBase (generate hostId cfgBase fsEmpty).1.fs).1.fs "m.rst" =
      (generate hostId cfgBase fsEmpty).1.fs "m.rst" ∧
    (generate hostId cfgBase (generate hostId cfgBase fsEmpty).1.fs).1.rst_writes = [] :=
  have hmain := C4_second_run_idempotent hostId cfgBase fsEmpty rfl (by decide)
    (fun _ hso => Option.noConfusion hso)
  ⟨hmain.1, hmain.2.1 "m.rst", hmain.2.2⟩

end AutoDocGen
